import Mathlib

/-!
Shallow embedding of the `as-any` crate (src/lib.rs).

The crate provides, over trait objects `dyn AsAny` (and custom hierarchies
whose traits extend `AsAny`), a type-identity predicate `is::<T>`, checked
downcasts `downcast_ref::<T>` / `downcast_mut::<T>`, unchecked downcasts
(`downcast_ref_unchecked`, `downcast_mut_unchecked`, and the owning
`downcast_unchecked` on `Box`), a `type_name` query, and an `implement!`
macro instantiated over the qualifier combinations `{}, {+Send}, {+Sync},
{+Send+Sync}`.

Model:
* `Ty` is the (finite) set of concrete types of one build; `interp` maps
  each to its Lean type; `type_name` records the `core::any::type_name`
  string of each (fully qualified rustc names, distinct per type within
  the build).
* Memory is a list of tagged values `DynValue`; a reference is an address
  into it.  This makes pointer-level facts (identical referent, same
  allocation, no byte copy) statable: `&*(self as *const Self as *const T)`
  is "the same address, reinterpreted".
* A trait-object reference `DynRef` carries the hierarchy base trait, the
  `Send`/`Sync` qualifier pair and the address.  All `Downcast` methods
  forward through `as_any`, which erases base and qualifier — exactly as
  the default method bodies of `trait Downcast` do in the source.
-/

namespace AsAnyModel

/-- The concrete types of one build of the program (data model of the
crate's `T: 'static` type parameters). -/
inductive Ty where
  | TInt
  | TText
  | TTest
  | TBool
deriving DecidableEq

/-- Interpretation of each concrete type as a Lean type. -/
@[reducible] def interp : Ty → Type
  | .TInt => Int
  | .TText => String
  | .TTest => Unit
  | .TBool => Bool

instance interpDecEq : (t : Ty) → DecidableEq (interp t)
  | .TInt => inferInstanceAs (DecidableEq Int)
  | .TText => inferInstanceAs (DecidableEq String)
  | .TTest => inferInstanceAs (DecidableEq Unit)
  | .TBool => inferInstanceAs (DecidableEq Bool)

/-- Model of `core::any::TypeId::of::<T>()`: the opaque per-type token,
used only for equality comparison.  In the model the tag itself serves as
the identifier. -/
def type_id (t : Ty) : Ty := t

/-- Model of `core::any::type_name::<T>()` (src/lib.rs line 100): the
static, human-readable, fully qualified name rustc assigns to each
concrete type of this build. -/
def type_name : Ty → String
  | .TInt => "i32"
  | .TText => "alloc::string::String"
  | .TTest => "Test"
  | .TBool => "bool"

/-- A type-erased value: a concrete-type tag together with a value of
that type ("Typed Value" of the data model). -/
structure DynValue where
  ty : Ty
  val : interp ty

/-- Memory: a heap of dynamic values; an address is an index. -/
abbrev Mem := List DynValue

/-- Read the cell at address `a`. -/
def mload (m : Mem) (a : Nat) : Option DynValue := m.get? a

/-- Overwrite the cell at address `a`. -/
def mstore (m : Mem) (a : Nat) (v : DynValue) : Mem := m.set a v

/-- Allocate a fresh cell holding `v`; returns the new heap and the
address of the cell (model of `Box::new`). -/
def alloc (m : Mem) (v : DynValue) : Mem × Nat := (m ++ [v], m.length)

/-- The base trait of a trait-object hierarchy: the crate's `dyn Any`,
`dyn AsAny`, and a downstream `dyn Custom` declared via the extension
mechanism (`trait Custom: AsAny` plus the four `impl Downcast` lines of
the crate's usage example). -/
inductive Base where
  | BAny
  | BAsAny
  | BCustom
deriving DecidableEq

/-- The auto-trait qualifier combination of a trait object:
`send = true` models `+ Send`, `sync = true` models `+ Sync`. -/
structure Qual where
  send : Bool
  sync : Bool
deriving DecidableEq

/-- A polymorphic (trait-object) reference: hierarchy base, qualifier
combination, and the address of the referent. -/
structure DynRef where
  base : Base
  qual : Qual
  addr : Nat

/-- Model of `AsAny::as_any` (src/lib.rs lines 77-79): `self` coerced to
`&dyn Any` — the same referent with base trait and qualifiers erased,
i.e. just the address. -/
def as_any (r : DynRef) : Nat := r.addr

/-- Model of `AsAny::as_any_mut` (src/lib.rs lines 82-84): same address,
exclusive access. -/
def as_any_mut (r : DynRef) : Nat := r.addr

/-- Model of `AsAny::as_my_any` (src/lib.rs lines 88-90). -/
def as_my_any (r : DynRef) : Nat := r.addr

/-- Model of `AsAny::as_my_any_mut` (src/lib.rs lines 94-96). -/
def as_my_any_mut (r : DynRef) : Nat := r.addr

/-- Model of `<dyn Any>::is::<T>` from `core::any`, the method
`Downcast::is` forwards to: compares the referent's stored type
identifier with `T`'s. -/
def any_is (T : Ty) (m : Mem) (a : Nat) : Bool :=
  match mload m a with
  | some v => decide (type_id T = type_id v.ty)
  | none => false

/-- Model of `<dyn Any>::downcast_ref::<T>` from `core::any`: if the
identity predicate holds, the same pointer reinterpreted at type `T`,
else `None`. -/
def any_downcast_ref (T : Ty) (m : Mem) (a : Nat) : Option Nat :=
  if any_is T m a then some a else none

/-- Model of `<dyn Any>::downcast_mut::<T>` from `core::any`: exclusive
variant of `any_downcast_ref`. -/
def any_downcast_mut (T : Ty) (m : Mem) (a : Nat) : Option Nat :=
  if any_is T m a then some a else none

/-- Model of `Downcast::is` (src/lib.rs lines 109-114):
`self.as_any().is::<T>()`. -/
def is (T : Ty) (m : Mem) (r : DynRef) : Bool :=
  any_is T m (as_any r)

/-- Model of `Downcast::downcast_ref` (src/lib.rs lines 118-123):
`self.as_any().downcast_ref()`. -/
def downcast_ref (T : Ty) (m : Mem) (r : DynRef) : Option Nat :=
  any_downcast_ref T m (as_any r)

/-- Model of `Downcast::downcast_mut` (src/lib.rs lines 127-132):
`self.as_any_mut().downcast_mut()`. -/
def downcast_mut (T : Ty) (m : Mem) (r : DynRef) : Option Nat :=
  any_downcast_mut T m (as_any_mut r)

/-- Model of `Downcast::downcast_ref_unchecked` (src/lib.rs lines
135-137) forwarding to `UncheckedAnyExt::downcast_ref_unchecked`
(lines 156-158): `&*(self as *const Self as *const T)` — the same
address reinterpreted at `T`, with no check. -/
def downcast_ref_unchecked (T : Ty) (r : DynRef) : Nat :=
  as_my_any r

/-- Model of `Downcast::downcast_mut_unchecked` (src/lib.rs lines
140-142) forwarding to `UncheckedAnyExt::downcast_mut_unchecked`
(lines 161-163): `&mut *(self as *mut Self as *mut T)`. -/
def downcast_mut_unchecked (T : Ty) (r : DynRef) : Nat :=
  as_my_any_mut r

/-- Model of the owning `UncheckedAnyExt::downcast_unchecked`
(src/lib.rs lines 167-169): `Box::from_raw(Box::into_raw(self) as *mut
T)` — the heap is untouched and the box keeps the same address,
reinterpreted at `T`. -/
def downcast_unchecked (T : Ty) (m : Mem) (a : Nat) : Mem × Nat :=
  (m, a)

/-- Model of `IntoBox::into_box` (src/lib.rs lines 173-178):
`Box::new(self)` — allocates a fresh cell holding the value, type-erased
behind the trait object. -/
def into_box (t : Ty) (x : interp t) (m : Mem) : Mem × Nat :=
  alloc m ⟨t, x⟩

/-- Dereference of a typed reference `&T` at address `a`: the payload,
provided the cell really holds a `T`. -/
def readT (T : Ty) (m : Mem) (a : Nat) : Option (interp T) :=
  match mload m a with
  | some v => if h : v.ty = T then some (h ▸ v.val) else none
  | none => none

/-- Store through a typed reference `&mut T`: overwrite the cell with a
new `T` payload. -/
def writeT (T : Ty) (m : Mem) (a : Nat) (x : interp T) : Mem :=
  mstore m a ⟨T, x⟩

/-- A mutation session through the checked exclusive downcast: call
`downcast_mut::<T>`, and when it is present apply `f` to the referent
through the returned `&mut T`; on mismatch nothing is written. -/
def mutate_via_downcast (T : Ty) (f : interp T → interp T) (m : Mem) (r : DynRef) : Mem :=
  match downcast_mut T m r with
  | some a =>
    match readT T m a with
    | some x => writeT T m a (f x)
    | none => m
  | none => m

/-- Model of `AsAny::type_name` applied to a referent (src/lib.rs lines
99-101): `core::any::type_name::<T>()` for the value's concrete type. -/
def type_name_of (v : DynValue) : String := type_name v.ty

/-- The `stringify!` of each base trait in the `implement!` macro. -/
def base_name : Base → String
  | .BAny => "Any"
  | .BAsAny => "AsAny"
  | .BCustom => "Custom"

/-- Model of `stringify!($base $(+ $bounds)*)` (src/lib.rs line 150):
the static name of the trait-object type. -/
def trait_obj_name (b : Base) (q : Qual) : String :=
  base_name b ++ (cond q.send " + Send" "") ++ (cond q.sync " + Sync" "")

/-- Model of the `fmt::Debug` impl generated by `implement!` (src/lib.rs
lines 147-152) under default formatter settings: `f.pad` of the
stringified trait-object name; the referent (`self`, hence the heap and
the address) is never inspected. -/
def fmt_debug (m : Mem) (r : DynRef) : String :=
  trait_obj_name r.base r.qual

/-! ### Fixtures and helper lemmas -/

/-- A one-cell heap holding the integer `5` (the spec's scenario of an
integer stored behind a polymorphic reference). -/
def memW : Mem := [⟨Ty.TInt, (5 : Int)⟩]

/-- A one-cell heap holding a boolean, a value of a different concrete
type. -/
def memB : Mem := [⟨Ty.TBool, true⟩]

/-- A `dyn AsAny` reference (no qualifiers) to the cell of `memW`. -/
def refW : DynRef := ⟨Base.BAsAny, ⟨false, false⟩, 0⟩

theorem mload_mstore_self (m : Mem) (a : Nat) (v w : DynValue)
    (h : mload m a = some w) : mload (mstore m a v) a = some v := by
  induction m generalizing a with
  | nil => simp [mload] at h
  | cons x xs ih =>
    cases a with
    | zero => simp [mload, mstore]
    | succ n =>
      simp only [mload, mstore, List.set_cons_succ, List.get?_cons_succ] at h ⊢
      exact ih n h

theorem mload_alloc (m : Mem) (v : DynValue) :
    mload (m ++ [v]) m.length = some v := by
  simp [mload]

theorem type_name_inj_on_build (t u : Ty) : type_name t = type_name u ↔ t = u := by
  cases t <;> cases u <;> decide

/-! ### Claim theorems -/

/-- C1: for every value stored behind a polymorphic reference (any base
trait and any qualifier combination) and every requested type `T`, the
checked downcasts `downcast_ref::<T>` and `downcast_mut::<T>` return a
present result if and only if `is::<T>` returns true, and the present
result is a reference to the very same value: the returned reference is
the reference's own address, not a copy. -/
theorem c1_checked_downcast_iff_is_and_same_referent (T : Ty) (m : Mem) (r : DynRef) :
    ((∃ a, downcast_ref T m r = some a) ↔ is T m r = true)
    ∧ (∀ a, downcast_ref T m r = some a → a = r.addr)
    ∧ ((∃ a, downcast_mut T m r = some a) ↔ is T m r = true)
    ∧ (∀ a, downcast_mut T m r = some a → a = r.addr) := by
  unfold downcast_ref downcast_mut any_downcast_ref any_downcast_mut is as_any as_any_mut
  cases h : any_is T m r.addr <;> simp [h]

/-- C2: the type-identity predicate `is::<T>` is a total Boolean-valued
function of the reference (no side effects, no failure path): for every
value of concrete type `t` stored behind a polymorphic reference it
returns true at `t` and false at every type distinct from `t`. -/
theorem c2_is_true_at_own_type_false_elsewhere (t : Ty) (x : interp t) (m : Mem)
    (r : DynRef) (h : mload m r.addr = some ⟨t, x⟩) :
    is t m r = true ∧ ∀ u : Ty, u ≠ t → is u m r = false := by
  unfold is any_is as_any type_id
  constructor
  · simp [h]
  · intro u hu
    simp [h, hu]

theorem c2_witness :
    is Ty.TInt memW refW = true ∧ is Ty.TBool memW refW = false :=
  have h := c2_is_true_at_own_type_false_elsewhere Ty.TInt (5 : Int) memW refW rfl
  ⟨h.1, h.2 Ty.TBool (by decide)⟩

/-- C3: on a type mismatch, both checked downcasts signal failure solely
by returning the absent result: the model functions are total (no panic
path exists), they return `none`, and the heap is left unchanged even by
a mutation session through the exclusive downcast. -/
theorem c3_mismatch_returns_none_state_unchanged (T : Ty) (m : Mem) (r : DynRef)
    (f : interp T → interp T) (h : is T m r = false) :
    downcast_ref T m r = none ∧ downcast_mut T m r = none
    ∧ mutate_via_downcast T f m r = m := by
  unfold is as_any at h
  unfold mutate_via_downcast downcast_ref downcast_mut any_downcast_ref any_downcast_mut
    as_any as_any_mut
  simp [h]

theorem c3_witness :
    downcast_ref Ty.TBool memW refW = none ∧ downcast_mut Ty.TBool memW refW = none
    ∧ mutate_via_downcast Ty.TBool Bool.not memW refW = memW :=
  c3_mismatch_returns_none_state_unchanged Ty.TBool memW refW Bool.not (by decide)

/-- C4: for a value whose true concrete type is `T`, the unchecked
downcasts return exactly the reference the checked downcasts return
(the same address), so reading through it yields the stored value and
any write through either reference produces the same heap. -/
theorem c4_unchecked_equals_checked_on_true_type (T : Ty) (x : interp T) (m : Mem)
    (r : DynRef) (h : mload m r.addr = some ⟨T, x⟩) :
    downcast_ref T m r = some (downcast_ref_unchecked T r)
    ∧ downcast_mut T m r = some (downcast_mut_unchecked T r)
    ∧ readT T m (downcast_ref_unchecked T r) = some x
    ∧ ∀ y : interp T,
        writeT T m (downcast_ref_unchecked T r) y = writeT T m (downcast_mut_unchecked T r) y := by
  unfold downcast_ref downcast_mut any_downcast_ref any_downcast_mut any_is as_any as_any_mut
    downcast_ref_unchecked downcast_mut_unchecked as_my_any as_my_any_mut readT
  simp [h, type_id]

theorem c4_witness :
    downcast_ref Ty.TInt memW refW = some (downcast_ref_unchecked Ty.TInt refW)
    ∧ downcast_mut Ty.TInt memW refW = some (downcast_mut_unchecked Ty.TInt refW)
    ∧ readT Ty.TInt memW (downcast_ref_unchecked Ty.TInt refW) = some 5
    ∧ writeT Ty.TInt memW (downcast_ref_unchecked Ty.TInt refW) 9
        = writeT Ty.TInt memW (downcast_mut_unchecked Ty.TInt refW) 9 :=
  have h := c4_unchecked_equals_checked_on_true_type Ty.TInt (5 : Int) memW refW rfl
  ⟨h.1, h.2.1, h.2.2.1, h.2.2.2 9⟩

/-- C5: a mutation performed through the exclusive checked downcast
`downcast_mut::<T>` is observable through a subsequent shared checked
downcast on the same reference: the later `downcast_ref::<T>` is present
(same referent) and reading it yields the mutated value. -/
theorem c5_mutation_observable_through_later_ref (T : Ty) (x : interp T)
    (f : interp T → interp T) (m : Mem) (r : DynRef)
    (h : mload m r.addr = some ⟨T, x⟩) :
    downcast_ref T (mutate_via_downcast T f m r) r = some r.addr
    ∧ readT T (mutate_via_downcast T f m r) r.addr = some (f x) := by
  have hm : mutate_via_downcast T f m r = mstore m r.addr ⟨T, f x⟩ := by
    unfold mutate_via_downcast downcast_mut any_downcast_mut any_is as_any_mut readT writeT
    simp [h, type_id]
  have hload : mload (mstore m r.addr ⟨T, f x⟩) r.addr = some ⟨T, f x⟩ :=
    mload_mstore_self m r.addr _ _ h
  rw [hm]
  constructor
  · unfold downcast_ref any_downcast_ref any_is as_any
    simp [hload, type_id]
  · unfold readT
    simp [hload]

theorem c5_witness :
    downcast_ref Ty.TInt (mutate_via_downcast Ty.TInt (fun z => z + 1) memW refW) refW
      = some refW.addr
    ∧ readT Ty.TInt (mutate_via_downcast Ty.TInt (fun z => z + 1) memW refW) refW.addr
      = some 6 :=
  c5_mutation_observable_through_later_ref Ty.TInt (5 : Int) (fun z => z + 1) memW refW rfl

/-- C6: for a boxed polymorphic value whose true concrete type is `T`,
the owning unchecked downcast `downcast_unchecked::<T>` keeps the same
allocation (same address) and leaves the heap untouched (no bytes are
copied), and the resulting `Box<T>` contains the same value. -/
theorem c6_owning_unchecked_same_allocation (T : Ty) (x : interp T) (m : Mem)
    (a : Nat) (h : mload m a = some ⟨T, x⟩) :
    downcast_unchecked T m a = (m, a)
    ∧ readT T (downcast_unchecked T m a).1 (downcast_unchecked T m a).2 = some x := by
  unfold downcast_unchecked readT
  simp [h]

theorem c6_witness :
    downcast_unchecked Ty.TInt memW 0 = (memW, 0)
    ∧ readT Ty.TInt (downcast_unchecked Ty.TInt memW 0).1
        (downcast_unchecked Ty.TInt memW 0).2 = some 5 :=
  c6_owning_unchecked_same_allocation Ty.TInt (5 : Int) memW 0 rfl

/-- C7: the qualifier combinations are exactly the four required ones
(`{}`, `{+Send}`, `{+Sync}`, `{+Send+Sync}`), and for every base trait
of the covered hierarchies (built-in `Any`, `AsAny`, and the custom
one), every qualifier combination, every requested type, heap and
address, the identity predicate and the checked and unchecked downcasts
agree with the built-in bare `dyn AsAny` hierarchy's operations. -/
theorem c7_hierarchies_agree_across_quals :
    (∀ q : Qual, q = ⟨false, false⟩ ∨ q = ⟨true, false⟩ ∨ q = ⟨false, true⟩ ∨ q = ⟨true, true⟩)
    ∧ ∀ (b : Base) (q : Qual) (T : Ty) (m : Mem) (a : Nat),
        is T m ⟨b, q, a⟩ = is T m ⟨Base.BAsAny, ⟨false, false⟩, a⟩
        ∧ downcast_ref T m ⟨b, q, a⟩ = downcast_ref T m ⟨Base.BAsAny, ⟨false, false⟩, a⟩
        ∧ downcast_mut T m ⟨b, q, a⟩ = downcast_mut T m ⟨Base.BAsAny, ⟨false, false⟩, a⟩
        ∧ downcast_ref_unchecked T ⟨b, q, a⟩
            = downcast_ref_unchecked T ⟨Base.BAsAny, ⟨false, false⟩, a⟩
        ∧ downcast_mut_unchecked T ⟨b, q, a⟩
            = downcast_mut_unchecked T ⟨Base.BAsAny, ⟨false, false⟩, a⟩ := by
  constructor
  · rintro ⟨s, y⟩
    cases s <;> cases y <;> simp
  · intro b q T m a
    exact ⟨rfl, rfl, rfl, rfl, rfl⟩

/-- C8: `type_name` returns the identical static string for two values
constructed as the same concrete type, and differing strings for values
of distinct concrete types within this build. -/
theorem c8_type_name_same_iff_same_type (v w : DynValue) :
    (v.ty = w.ty → type_name_of v = type_name_of w)
    ∧ (v.ty ≠ w.ty → type_name_of v ≠ type_name_of w) := by
  obtain ⟨tv, xv⟩ := v
  obtain ⟨tw, xw⟩ := w
  constructor
  · intro h
    show type_name tv = type_name tw
    exact (type_name_inj_on_build tv tw).mpr h
  · intro hne heq
    exact hne ((type_name_inj_on_build tv tw).mp heq)

theorem c8_witness :
    type_name_of ⟨Ty.TInt, (5 : Int)⟩ = type_name_of ⟨Ty.TInt, (7 : Int)⟩
    ∧ type_name_of ⟨Ty.TInt, (5 : Int)⟩ ≠ type_name_of ⟨Ty.TBool, true⟩ :=
  ⟨(c8_type_name_same_iff_same_type ⟨Ty.TInt, (5 : Int)⟩ ⟨Ty.TInt, (7 : Int)⟩).1 rfl,
   (c8_type_name_same_iff_same_type ⟨Ty.TInt, (5 : Int)⟩ ⟨Ty.TBool, true⟩).2 (by decide)⟩

/-- C9: converting a value into a boxed trait object with `into_box` and
then applying the owning unchecked downcast at its true concrete type
yields the same box (same allocation, untouched heap), and that box
contains the original value. -/
theorem c9_into_box_downcast_roundtrip (t : Ty) (x : interp t) (m : Mem) :
    downcast_unchecked t (into_box t x m).1 (into_box t x m).2 = into_box t x m
    ∧ readT t (into_box t x m).1 (into_box t x m).2 = some x := by
  refine ⟨rfl, ?_⟩
  unfold into_box alloc readT
  simp [mload_alloc]

/-- C10: the generated `Debug` formatting outputs the static name of the
trait-object type, computed from the base trait and its qualifiers only:
it never inspects the heap or the referent, so two values of different
concrete types behind the same trait object format identically (e.g. as
"AsAny + Send"). -/
theorem c10_debug_depends_only_on_trait_obj_type (m₁ m₂ : Mem) (r₁ r₂ : DynRef)
    (hb : r₁.base = r₂.base) (hq : r₁.qual = r₂.qual) :
    fmt_debug m₁ r₁ = fmt_debug m₂ r₂
    ∧ fmt_debug m₁ r₁ = trait_obj_name r₁.base r₁.qual
    ∧ trait_obj_name Base.BAsAny ⟨true, false⟩ = "AsAny + Send" := by
  refine ⟨?_, rfl, rfl⟩
  unfold fmt_debug
  rw [hb, hq]

theorem c10_witness :
    fmt_debug memW ⟨Base.BAsAny, ⟨true, false⟩, 0⟩
      = fmt_debug memB ⟨Base.BAsAny, ⟨true, false⟩, 0⟩
    ∧ fmt_debug memW ⟨Base.BAsAny, ⟨true, false⟩, 0⟩ = trait_obj_name Base.BAsAny ⟨true, false⟩
    ∧ trait_obj_name Base.BAsAny ⟨true, false⟩ = "AsAny + Send" :=
  c10_debug_depends_only_on_trait_obj_type memW memB
    ⟨Base.BAsAny, ⟨true, false⟩, 0⟩ ⟨Base.BAsAny, ⟨true, false⟩, 0⟩ rfl rfl

end AsAnyModel
